import Mathlib

/-
Shallow embedding of the AutoCorteMP4 analysis core
(src/analyzer/optical_flow.py, src/analyzer/scene_change.py,
src/analyzer/cut_detector.py).

Modelling conventions:
* Python floats become rationals (ℚ); frame counters become ℕ/ℤ.
* Opaque external library calls (OpenCV / NumPy numeric kernels:
  cv2.cartToPolar, the trigonometric weighted circular mean, the
  zoom/rotation detectors, histogram and SSIM computation on pixel
  buffers, the complex-exponential circular mean of
  CutDetector._detect_motion_change) are modelled by their output
  values, carried as inputs; every piece of arithmetic and control
  flow written in the repository itself is embedded directly.
* numpy.mean of an empty list is NaN; here listMean [] = 0.  This is
  only reachable for window_size ≤ 1 (the configuration requires
  window_size ≥ 2), and theorems touching half-windows carry an
  explicit size hypothesis.
-/

namespace AutoCorte

/-- Arithmetic mean of a list of rationals (numpy.mean). -/
def listMean (l : List ℚ) : ℚ := l.sum / l.length

/-- Python float modulo (`a % b`), floor-based, as used on angles. -/
def qmod (a b : ℚ) : ℚ := a - b * ⌊a / b⌋

/-- Enum MovementDirection from src/analyzer/optical_flow.py. -/
inductive MovementDirection where
  | NONE
  | RIGHT
  | LEFT
  | UP
  | DOWN
  | UP_RIGHT
  | UP_LEFT
  | DOWN_RIGHT
  | DOWN_LEFT
  | ZOOM_IN
  | ZOOM_OUT
  | ROTATION
  | MIXED
deriving DecidableEq, Repr

/-- The `.value` string of each MovementDirection member. -/
def dir_value : MovementDirection → String
  | .NONE => "parado"
  | .RIGHT => "direita"
  | .LEFT => "esquerda"
  | .UP => "cima"
  | .DOWN => "baixo"
  | .UP_RIGHT => "diagonal_cima_direita"
  | .UP_LEFT => "diagonal_cima_esquerda"
  | .DOWN_RIGHT => "diagonal_baixo_direita"
  | .DOWN_LEFT => "diagonal_baixo_esquerda"
  | .ZOOM_IN => "aproximação"
  | .ZOOM_OUT => "afastamento"
  | .ROTATION => "rotação"
  | .MIXED => "misto"

/-- One pixel of a dense flow field: the raw components `fx`, `fy`
and the outputs `mag`, `ang` of the opaque library call
`cv2.cartToPolar(fx, -fy)` (magnitude, angle in degrees mod 360). -/
structure FlowPixel where
  fx : ℚ
  fy : ℚ
  mag : ℚ
  ang : ℚ
deriving DecidableEq, Repr

/-- A flow field, together with the outputs of the opaque
trigonometric kernels of analyze_flow that consume it:
`mean_angle`/`angle_std` (the magnitude-weighted circular mean and
circular standard deviation, numpy sin/cos/arctan2/log),
`is_divergent`/`divergence_score` (_detect_zoom) and
`is_rotational` (_detect_rotation). -/
structure FlowField where
  pixels : List FlowPixel
  mean_angle : ℚ
  angle_std : ℚ
  is_divergent : Bool
  divergence_score : ℚ
  is_rotational : Bool
deriving DecidableEq, Repr

/-- Dataclass FrameMotion from src/analyzer/optical_flow.py. -/
structure FrameMotion where
  magnitude : ℚ
  direction : MovementDirection
  angle_degrees : ℚ
  angle_std : ℚ
  is_divergent : Bool
  is_rotational : Bool
  dx_mean : ℚ
  dy_mean : ℚ
  raw_flow : FlowField
deriving DecidableEq, Repr

/-- _angle_to_direction_8 from src/analyzer/optical_flow.py:
45° sectors centred on the 8 compass directions, fallback MIXED. -/
def angle_to_direction_8 (angle : ℚ) : MovementDirection :=
  let a := qmod angle 360
  if a < 22.5 ∨ a ≥ 337.5 then .RIGHT
  else if 22.5 ≤ a ∧ a < 67.5 then .UP_RIGHT
  else if 67.5 ≤ a ∧ a < 112.5 then .UP
  else if 112.5 ≤ a ∧ a < 157.5 then .UP_LEFT
  else if 157.5 ≤ a ∧ a < 202.5 then .LEFT
  else if 202.5 ≤ a ∧ a < 247.5 then .DOWN_LEFT
  else if 247.5 ≤ a ∧ a < 292.5 then .DOWN
  else if 292.5 ≤ a ∧ a < 337.5 then .DOWN_RIGHT
  else .MIXED

/-- analyze_flow from src/analyzer/optical_flow.py.  The arithmetic
means and the threshold short-circuit are embedded directly; the
transcendental quantities of the full branch come from the opaque
kernel outputs carried in the FlowField. -/
def analyze_flow (flow : FlowField) (magnitude_threshold : ℚ) : FrameMotion :=
  let dx_mean := listMean (flow.pixels.map (fun p => p.fx))
  let dy_mean := listMean (flow.pixels.map (fun p => p.fy))
  let mean_magnitude := listMean (flow.pixels.map (fun p => p.mag))
  if mean_magnitude < magnitude_threshold then
    { magnitude := mean_magnitude
      direction := .NONE
      angle_degrees := 0
      angle_std := 0
      is_divergent := false
      is_rotational := false
      dx_mean := dx_mean
      dy_mean := dy_mean
      raw_flow := flow }
  else
    let direction :=
      if flow.is_rotational && !flow.is_divergent then MovementDirection.ROTATION
      else if flow.is_divergent then
        (if flow.divergence_score > 0 then MovementDirection.ZOOM_IN
         else MovementDirection.ZOOM_OUT)
      else angle_to_direction_8 flow.mean_angle
    { magnitude := mean_magnitude
      direction := direction
      angle_degrees := flow.mean_angle
      angle_std := flow.angle_std
      is_divergent := flow.is_divergent
      is_rotational := flow.is_rotational
      dx_mean := dx_mean
      dy_mean := dy_mean
      raw_flow := flow }

/-- angle_difference from src/analyzer/optical_flow.py. -/
def angle_difference (a1 a2 : ℚ) : ℚ :=
  let diff := qmod |a1 - a2| 360
  min diff (360 - diff)

/-- histogram_difference from src/analyzer/scene_change.py, modelled
over the three per-channel correlation scores returned by the opaque
library call cv2.compareHist (HISTCMP_CORREL, each in [-1, 1]). -/
def histogram_difference (scores : List ℚ) : ℚ :=
  (1 - listMean scores) / 2

/-- is_scene_cut from src/analyzer/scene_change.py, modelled over the
values `hist_diff = histogram_difference(frame1, frame2)` and
`ssim = ssim_score(frame1, frame2)` (the two frame-level functions
are opaque image pipelines; their outputs are taken as inputs). -/
def is_scene_cut (hist_diff ssim : ℚ)
    (histogram_threshold ssim_threshold : ℚ) : Bool × ℚ :=
  let hist_ok := hist_diff > histogram_threshold
  let ssim_ok := ssim < ssim_threshold
  if hist_ok ∧ ssim_ok then
    (true, min 1 ((hist_diff / histogram_threshold +
      (1 - ssim) / (1 - ssim_threshold + 1/1000000)) / 2))
  else if hist_ok then
    (true, hist_diff / histogram_threshold * 0.7)
  else if ssim_ok then
    (true, (1 - ssim) / (1 - ssim_threshold + 1/1000000) * 0.6)
  else
    (false, 0)

/-- Structured form of the cut-type strings built by CutDetector:
"parada_<dir>", "inicio_<dir>", "mudança_<dirA>_para_<dirB>" and
"corte_de_cena". -/
inductive CutType where
  | parada (d : MovementDirection)
  | inicio (d : MovementDirection)
  | mudanca (d1 d2 : MovementDirection)
  | corte_de_cena
deriving DecidableEq, Repr

/-- The string rendering of a CutType, as built by the f-strings of
CutDetector._detect_motion_change and the literal "corte_de_cena". -/
def cut_type_value : CutType → String
  | .parada d => "parada_" ++ dir_value d
  | .inicio d => "inicio_" ++ dir_value d
  | .mudanca d1 d2 => "mudança_" ++ dir_value d1 ++ "_para_" ++ dir_value d2
  | .corte_de_cena => "corte_de_cena"

/-- The helper dominant_direction inside _detect_motion_change:
mode of the non-NONE directions, NONE when there are none.  Python's
`max(set(d_list), key=d_list.count)` iterates a set in unspecified
order; ties are broken here by first occurrence among the distinct
elements (the source leaves the tie-break unspecified). -/
def dominant_direction (d_list : List MovementDirection) : MovementDirection :=
  let l := d_list.filter (fun d => d ≠ MovementDirection.NONE)
  match l with
  | [] => MovementDirection.NONE
  | x :: _ =>
    l.dedup.foldl (fun best d => if l.count d > l.count best then d else best) x

/-- Result dict of CutDetector._detect_motion_change:
{"changed": ..., "type": ..., "confidence": ...}. -/
structure MotionChange where
  changed : Bool
  ctype : Option CutType
  confidence : ℚ
deriving DecidableEq, Repr

/-- CutDetector._detect_motion_change from src/analyzer/cut_detector.py.
`circM` is the opaque circular-mean kernel (complex exponentials via
numpy) applied to each half of the angle window. -/
def detect_motion_change (circM : List ℚ → ℚ)
    (magnitude_threshold stop_threshold angle_change_threshold : ℚ)
    (angle_window : List ℚ) (magnitude_window : List ℚ)
    (direction_window : List MovementDirection) : MotionChange :=
  let angles := angle_window
  let mags := magnitude_window
  let dirs := direction_window
  let half := angles.length / 2
  let mags_first := mags.take half
  let mags_second := mags.drop half
  let angles_first := angles.take half
  let angles_second := angles.drop half
  let mean_mag_first := listMean mags_first
  let mean_mag_second := listMean mags_second
  let angle_first := circM angles_first
  let angle_second := circM angles_second
  let dir_first := dominant_direction (dirs.take half)
  let dir_second := dominant_direction (dirs.drop half)
  if mean_mag_first > magnitude_threshold * 1.5 ∧
      mean_mag_second < magnitude_threshold * stop_threshold then
    { changed := true
      ctype := some (.parada dir_first)
      confidence := min 1 (mean_mag_first / (mean_mag_second + 0.1) / 8) }
  else if mean_mag_first < magnitude_threshold * stop_threshold ∧
      mean_mag_second > magnitude_threshold * 1.5 then
    { changed := true
      ctype := some (.inicio dir_second)
      confidence := min 1 (mean_mag_second / (mean_mag_first + 0.1) / 8) }
  else if mean_mag_first > magnitude_threshold ∧
      mean_mag_second > magnitude_threshold then
    let ang_diff := angle_difference angle_first angle_second
    if ang_diff ≥ angle_change_threshold then
      { changed := true
        ctype := some (.mudanca dir_first dir_second)
        confidence := min 1 (ang_diff / 180) }
    else
      { changed := false, ctype := none, confidence := 0 }
  else
    { changed := false, ctype := none, confidence := 0 }

/-- Configuration consumed by CutDetector.__init__ (the raw values
of the config dict sections analysis / optical_flow / scene_change /
export). -/
structure Config where
  sensitivity : ℚ
  frame_skip : ℕ
  magnitude_threshold : ℚ
  angle_change_threshold : ℚ
  stop_threshold : ℚ
  window_size : ℕ
  histogram_threshold : ℚ
  ssim_threshold : ℚ
  min_segment_duration : ℚ
deriving DecidableEq, Repr

/-- self.magnitude_threshold = raw / sensitivity (CutDetector.__init__). -/
def effective_magnitude_threshold (c : Config) : ℚ :=
  c.magnitude_threshold / c.sensitivity

/-- self.angle_change_threshold = raw / sensitivity (CutDetector.__init__). -/
def effective_angle_change_threshold (c : Config) : ℚ :=
  c.angle_change_threshold / c.sensitivity

/-- self.histogram_threshold = raw / sensitivity (CutDetector.__init__). -/
def effective_histogram_threshold (c : Config) : ℚ :=
  c.histogram_threshold / c.sensitivity

/-- self.ssim_threshold = min(0.99, raw * sensitivity) (CutDetector.__init__). -/
def effective_ssim_threshold (c : Config) : ℚ :=
  min 0.99 (c.ssim_threshold * c.sensitivity)

/-- min_frames_between_cuts = int(min_segment_duration * fps)
(Python int() truncation; durations and fps are nonnegative, so this
is the floor). -/
def min_frames_between_cuts (c : Config) (fps : ℚ) : ℤ :=
  ⌊c.min_segment_duration * fps⌋

/-- One cut dict appended to cut_points by CutDetector.detect.  The
"type" string of the dict is `cut_type_value ctype`. -/
structure CutEvent where
  frame : ℕ
  timestamp : ℚ
  ctype : CutType
  confidence : ℚ
  angle : ℚ
  magnitude : ℚ
  direction : String
deriving DecidableEq, Repr

/-- Loop state of CutDetector.detect: accumulated cuts, last cut
frame, frame counter and the three sliding windows (deques of maxlen
window_size). -/
structure DetState where
  cut_points : List CutEvent
  last_cut_frame : ℕ
  frame_number : ℕ
  angle_window : List ℚ
  magnitude_window : List ℚ
  direction_window : List MovementDirection
deriving DecidableEq, Repr

/-- Append to a deque with maxlen: the oldest element is dropped once
capacity is exceeded. -/
def pushWindow {α : Type} (w : List α) (x : α) (maxlen : ℕ) : List α :=
  let w' := w ++ [x]
  if maxlen < w'.length then w'.drop (w'.length - maxlen) else w'

/-- Per-frame input of the analysis loop: the dense flow field of the
(previous, current) pair, and the outputs of the opaque frame-level
functions histogram_difference / ssim_score on that pair. -/
structure FrameData where
  flow : FlowField
  hist_diff : ℚ
  ssim : ℚ
deriving DecidableEq, Repr

/-- The motion-change stage of CutDetector.detect lines 110-115:
once the windows hold window_size samples, _detect_motion_change is
consulted and its type/confidence adopted when it reports a change;
otherwise the candidate stays (None, 0.0). -/
def motion_candidate (c : Config) (circM : List ℚ → ℚ)
    (aw mw : List ℚ) (dw : List MovementDirection) : Option CutType × ℚ :=
  if c.window_size ≤ mw.length then
    let change := detect_motion_change circM (effective_magnitude_threshold c)
      c.stop_threshold (effective_angle_change_threshold c) aw mw dw
    if change.changed then (change.ctype, change.confidence) else (none, 0)
  else (none, 0)

/-- The candidate-arbitration of CutDetector.detect lines 107-124:
`cand` is the (cut_reason, confidence) pair from the motion stage
(none / 0.0 when no motion change); the scene result overwrites it
exactly when scene_cut holds and scene_conf strictly exceeds the
current confidence. -/
def chooseCandidate (cand : Option CutType × ℚ)
    (scene_cut : Bool) (scene_conf : ℚ) : Option CutType × ℚ :=
  if scene_cut ∧ scene_conf > cand.2 then (some .corte_de_cena, scene_conf)
  else cand

/-- One iteration of the while-loop of CutDetector.detect, for an
analyzed frame.  The frame counter advances by frame_skip (skipped
reads) plus one; the windows are appended before the hysteresis
gate, exactly as in the source. -/
def detectStep (c : Config) (fps : ℚ) (circM : List ℚ → ℚ)
    (st : DetState) (fd : FrameData) : DetState :=
  let fn := st.frame_number + c.frame_skip + 1
  let motion := analyze_flow fd.flow (effective_magnitude_threshold c)
  let aw := pushWindow st.angle_window motion.angle_degrees c.window_size
  let mw := pushWindow st.magnitude_window motion.magnitude c.window_size
  let dw := pushWindow st.direction_window motion.direction c.window_size
  if (fn : ℤ) - (st.last_cut_frame : ℤ) < min_frames_between_cuts c fps then
    { st with
      frame_number := fn
      angle_window := aw
      magnitude_window := mw
      direction_window := dw }
  else
    let motion_cand : Option CutType × ℚ := motion_candidate c circM aw mw dw
    let scene := is_scene_cut fd.hist_diff fd.ssim
      (effective_histogram_threshold c) (effective_ssim_threshold c)
    let cand := chooseCandidate motion_cand scene.1 scene.2
    match cand.1 with
    | some ct =>
      { cut_points := st.cut_points ++
          [{ frame := fn
             timestamp := (fn : ℚ) / fps
             ctype := ct
             confidence := cand.2
             angle := motion.angle_degrees
             magnitude := motion.magnitude
             direction := dir_value motion.direction }]
        last_cut_frame := fn
        frame_number := fn
        angle_window := []
        magnitude_window := []
        direction_window := [] }
    | none =>
      { st with
        frame_number := fn
        angle_window := aw
        magnitude_window := mw
        direction_window := dw }

/-- State after the initial read of the first (previous) frame:
no cuts, last_cut_frame = 0, frame_number = 1, empty windows. -/
def initState : DetState :=
  { cut_points := []
    last_cut_frame := 0
    frame_number := 1
    angle_window := []
    magnitude_window := []
    direction_window := [] }

/-- CutDetector.detect.  `opened` models cv2.VideoCapture.isOpened();
`first_read_ok` models the first cap.read(); `stream` is the list of
successfully decoded and analyzed frames (a mid-stream decode failure
is the end of this list, ending the loop).  The stop_flag is None. -/
def detect (c : Config) (fps : ℚ) (circM : List ℚ → ℚ)
    (opened : Bool) (first_read_ok : Bool) (stream : List FrameData) :
    Except String (List CutEvent) :=
  if !opened then .error "Não foi possível abrir o vídeo"
  else if !first_read_ok then .ok []
  else .ok ((stream.foldl (detectStep c fps circM) initState).cut_points)

/-! Concrete fixtures used to evaluate the model on explicit inputs. -/

/-- A flow field with a single zero flow vector (still frame pair). -/
def zeroFlow : FlowField :=
  { pixels := [{ fx := 0, fy := 0, mag := 0, ang := 0 }]
    mean_angle := 0
    angle_std := 0
    is_divergent := false
    divergence_score := 0
    is_rotational := false }

/-- A flow field with two pixels of nonzero flow: mean mag 17/4,
dx mean 1, dy mean 3. -/
def flowB : FlowField :=
  { pixels := [{ fx := 3, fy := 4, mag := 5, ang := 0 },
               { fx := -1, fy := 2, mag := 7/2, ang := 90 }]
    mean_angle := 45
    angle_std := 10
    is_divergent := false
    divergence_score := 0
    is_rotational := false }

/-- A frame pair with no motion but a drastic appearance change
(hist_diff 9/10, ssim 1). -/
def sceneFD : FrameData := { flow := zeroFlow, hist_diff := 9/10, ssim := 1 }

/-- A small configuration: sensitivity 1, no frame skip,
window_size 3, min_segment_duration 0.5 s (so at 3 fps the debounce
is ⌊1.5⌋ = 1 frame). -/
def cfgA : Config :=
  { sensitivity := 1
    frame_skip := 0
    magnitude_threshold := 1
    angle_change_threshold := 30
    stop_threshold := 3/10
    window_size := 3
    histogram_threshold := 2/5
    ssim_threshold := 7/10
    min_segment_duration := 1/2 }

/-- cfgA with sensitivity 1/2. -/
def cfgHalf : Config := { cfgA with sensitivity := 1/2 }

/-- cfgA with sensitivity 2. -/
def cfgTwo : Config := { cfgA with sensitivity := 2 }

/-- Opaque circular-mean kernel instantiated to the constant 0
(its value is irrelevant in the concrete runs below: the angle-shift
guard never fires there). -/
def czero : List ℚ → ℚ := fun _ => 0

/-- The loop state after running the detector on two consecutive
still-but-scene-changing frames under cfgA at 3 fps. -/
def runA : DetState :=
  List.foldl (detectStep cfgA 3 czero) initState [sceneFD, sceneFD]

/-- The cut emitted at frame 2 in the run above. -/
def cutE1 : CutEvent :=
  { frame := 2
    timestamp := 2/3
    ctype := .corte_de_cena
    confidence := 63/40
    angle := 0
    magnitude := 0
    direction := "parado" }

/-- The cut emitted at frame 3 in the run above. -/
def cutE2 : CutEvent :=
  { frame := 3
    timestamp := 1
    ctype := .corte_de_cena
    confidence := 63/40
    angle := 0
    magnitude := 0
    direction := "parado" }

/-! Helper lemmas. -/

theorem qmod_eq_self {a b : ℚ} (h0 : 0 ≤ a) (hab : a < b) : qmod a b = a := by
  have hb : 0 < b := lt_of_le_of_lt h0 hab
  have hfl : ⌊a / b⌋ = 0 := by
    rw [Int.floor_eq_zero_iff, Set.mem_Ico]
    exact ⟨div_nonneg h0 hb.le, (div_lt_one hb).mpr hab⟩
  unfold qmod
  rw [hfl]
  ring

theorem qmod_nonneg (a : ℚ) {b : ℚ} (hb : 0 < b) : 0 ≤ qmod a b := by
  unfold qmod
  have h := Int.floor_le (a / b)
  have : b * (⌊a / b⌋ : ℚ) ≤ b * (a / b) := by
    exact mul_le_mul_of_nonneg_left h hb.le
  rw [mul_div_cancel₀ a hb.ne'] at this
  linarith

theorem qmod_lt (a : ℚ) {b : ℚ} (hb : 0 < b) : qmod a b < b := by
  unfold qmod
  have h := Int.lt_floor_add_one (a / b)
  have : b * (a / b) < b * ((⌊a / b⌋ : ℚ) + 1) := by
    exact mul_lt_mul_of_pos_left h hb
  rw [mul_div_cancel₀ a hb.ne'] at this
  nlinarith

theorem angle_difference_nonneg (a1 a2 : ℚ) : 0 ≤ angle_difference a1 a2 := by
  unfold angle_difference
  have h1 := qmod_nonneg |a1 - a2| (b := 360) (by norm_num)
  have h2 := qmod_lt |a1 - a2| (b := 360) (by norm_num)
  exact le_min h1 (by linarith)

theorem listMean_nonneg {l : List ℚ} (h : ∀ x ∈ l, 0 ≤ x) : 0 ≤ listMean l := by
  unfold listMean
  exact div_nonneg (List.sum_nonneg h) (by positivity)

theorem sum_lt_of_forall_lt {t : ℚ} :
    ∀ {l : List ℚ}, l ≠ [] → (∀ x ∈ l, x < t) → l.sum < (l.length : ℚ) * t := by
  intro l
  induction l with
  | nil => intro h; exact absurd rfl h
  | cons a l ih =>
    intro _ h
    by_cases hl : l = []
    · subst hl
      simpa using h a (List.mem_cons_self a [])
    · have hsum := ih hl (fun x hx => h x (List.mem_cons_of_mem _ hx))
      have ha := h a (List.mem_cons_self a l)
      have : ((a :: l).length : ℚ) = (l.length : ℚ) + 1 := by
        simp
      rw [List.sum_cons, this]
      linarith

theorem mean_exists_ge {t : ℚ} {l : List ℚ} (ht : 0 ≤ t)
    (h : t < listMean l) : ∃ x ∈ l, t ≤ x := by
  by_contra hc
  push_neg at hc
  by_cases hl : l = []
  · subst hl
    simp [listMean] at h
    linarith
  · have hs := sum_lt_of_forall_lt hl hc
    have hn : 0 < (l.length : ℚ) := by
      have : l.length ≠ 0 := fun h0 => hl (List.length_eq_zero.mp h0)
      positivity
    have : listMean l < t := by
      unfold listMean
      rw [div_lt_iff₀ hn]
      linarith
    linarith

theorem dir_value_eq_parado {d : MovementDirection} :
    dir_value d = "parado" ↔ d = MovementDirection.NONE := by
  cases d <;> decide

theorem dominant_aux (l' : List MovementDirection) :
    ∀ (ds : List MovementDirection) (x : MovementDirection), x ∈ l' →
      (∀ d ∈ ds, d ∈ l') →
      ds.foldl (fun best d => if l'.count d > l'.count best then d else best) x ∈ l' := by
  intro ds
  induction ds with
  | nil => intro x hx _; simpa using hx
  | cons d ds ih =>
    intro x hx hds
    rw [List.foldl_cons]
    apply ih
    · by_cases hc : l'.count d > l'.count x
      · simpa [hc] using hds d (List.mem_cons_self d ds)
      · simpa [hc] using hx
    · exact fun e he => hds e (List.mem_cons_of_mem _ he)

theorem dominant_direction_ne {l : List MovementDirection}
    (h : ∃ d ∈ l, d ≠ MovementDirection.NONE) :
    dominant_direction l ≠ MovementDirection.NONE := by
  obtain ⟨d, hd, hdn⟩ := h
  have hd' : d ∈ l.filter (fun d => d ≠ MovementDirection.NONE) := by
    rw [List.mem_filter]
    exact ⟨hd, by simpa using hdn⟩
  unfold dominant_direction
  cases hfl : l.filter (fun d => d ≠ MovementDirection.NONE) with
  | nil => rw [hfl] at hd'; simp at hd'
  | cons x t =>
    dsimp only
    intro heq
    have hmem : (x :: t).dedup.foldl
        (fun best d => if (x :: t).count d > (x :: t).count best then d else best) x
        ∈ (x :: t) := by
      apply dominant_aux
      · exact List.mem_cons_self x t
      · exact fun e he => List.mem_dedup.mp he
    rw [heq] at hmem
    rw [← hfl] at hmem
    have := List.of_mem_filter hmem
    simp at this

theorem runA_eq : runA =
    { cut_points := [cutE1, cutE2]
      last_cut_frame := 3
      frame_number := 3
      angle_window := []
      magnitude_window := []
      direction_window := [] } := by
  norm_num [runA, detectStep, initState, cfgA, sceneFD, zeroFlow, czero,
    analyze_flow, listMean, pushWindow, effective_magnitude_threshold,
    effective_histogram_threshold, effective_ssim_threshold,
    effective_angle_change_threshold, min_frames_between_cuts, is_scene_cut,
    motion_candidate, chooseCandidate, detect_motion_change, dominant_direction,
    angle_difference, qmod, cutE1, cutE2, dir_value]

theorem pushWindow_length {α : Type} (w : List α) (x : α) (n : ℕ) :
    (pushWindow w x n).length = min n (w.length + 1) := by
  unfold pushWindow
  by_cases h : n < (w ++ [x]).length
  · simp only [if_pos h, List.length_drop]
    simp at h ⊢
    omega
  · simp only [if_neg h]
    simp at h ⊢
    omega

/-! Claim theorems. -/

/-- C5: whenever the mean per-pixel magnitude of a flow field is
strictly below the magnitude threshold, analyze_flow returns the
NONE motion summary (direction NONE, angle 0, std 0, flags false)
with the true means, performing no further classification. -/
theorem analyze_flow_below_threshold (flow : FlowField) (t : ℚ)
    (h : listMean (flow.pixels.map (fun p => p.mag)) < t) :
    analyze_flow flow t =
      { magnitude := listMean (flow.pixels.map (fun p => p.mag))
        direction := .NONE
        angle_degrees := 0
        angle_std := 0
        is_divergent := false
        is_rotational := false
        dx_mean := listMean (flow.pixels.map (fun p => p.fx))
        dy_mean := listMean (flow.pixels.map (fun p => p.fy))
        raw_flow := flow } := by
  unfold analyze_flow
  rw [if_pos h]

/-- Witness for C5: a one-pixel zero flow field below threshold 1. -/
theorem analyze_flow_below_threshold_witness :
    listMean (zeroFlow.pixels.map (fun p => p.mag)) < 1 ∧
    analyze_flow zeroFlow 1 =
      { magnitude := 0
        direction := .NONE
        angle_degrees := 0
        angle_std := 0
        is_divergent := false
        is_rotational := false
        dx_mean := 0
        dy_mean := 0
        raw_flow := zeroFlow } := by
  have hm : listMean (zeroFlow.pixels.map (fun p => p.mag)) < 1 := by
    norm_num [zeroFlow, listMean]
  refine ⟨hm, ?_⟩
  refine (analyze_flow_below_threshold zeroFlow 1 hm).trans ?_
  norm_num [zeroFlow, listMean]

/-- C9: in the below-threshold short-circuit of analyze_flow, the
returned magnitude, dx_mean and dy_mean are the true arithmetic
means of the input flow field (not zeroed); only direction,
angle_degrees, angle_std and the zoom/rotation flags are forced. -/
theorem analyze_flow_short_circuit_means (flow : FlowField) (t : ℚ)
    (h : listMean (flow.pixels.map (fun p => p.mag)) < t) :
    (analyze_flow flow t).magnitude = listMean (flow.pixels.map (fun p => p.mag)) ∧
    (analyze_flow flow t).dx_mean = listMean (flow.pixels.map (fun p => p.fx)) ∧
    (analyze_flow flow t).dy_mean = listMean (flow.pixels.map (fun p => p.fy)) ∧
    (analyze_flow flow t).direction = .NONE ∧
    (analyze_flow flow t).angle_degrees = 0 ∧
    (analyze_flow flow t).angle_std = 0 ∧
    (analyze_flow flow t).is_divergent = false ∧
    (analyze_flow flow t).is_rotational = false := by
  unfold analyze_flow
  rw [if_pos h]
  exact ⟨rfl, rfl, rfl, rfl, rfl, rfl, rfl, rfl⟩

/-- Witness for C9: a two-pixel flow field with nonzero means
(mean magnitude 17/4, dx mean 1, dy mean 3) below threshold 5:
the means survive the short-circuit unzeroed. -/
theorem analyze_flow_short_circuit_means_witness :
    listMean (flowB.pixels.map (fun p => p.mag)) < 5 ∧
    (analyze_flow flowB 5).magnitude = 17/4 ∧
    (analyze_flow flowB 5).dx_mean = 1 ∧
    (analyze_flow flowB 5).dy_mean = 3 ∧
    (analyze_flow flowB 5).direction = .NONE := by
  have hm : listMean (flowB.pixels.map (fun p => p.mag)) < 5 := by
    norm_num [flowB, listMean]
  have h := analyze_flow_short_circuit_means flowB 5 hm
  refine ⟨hm, h.1.trans ?_, h.2.1.trans ?_, h.2.2.1.trans ?_, h.2.2.2.1⟩
  · norm_num [flowB, listMean]
  · norm_num [flowB, listMean]
  · norm_num [flowB, listMean]

/-- C4: the scene-change result overwrites the motion-change
candidate exactly when is_scene_cut reports a cut and its confidence
strictly exceeds the candidate's; in every other case (including an
exact tie of confidences) the motion candidate is kept unchanged. -/
theorem scene_override_characterization (cand : Option CutType × ℚ)
    (sc : Bool) (scf : ℚ) :
    (sc = true ∧ scf > cand.2 →
      chooseCandidate cand sc scf = (some CutType.corte_de_cena, scf)) ∧
    (¬(sc = true ∧ scf > cand.2) → chooseCandidate cand sc scf = cand) ∧
    (scf = cand.2 → chooseCandidate cand sc scf = cand) := by
  unfold chooseCandidate
  refine ⟨fun h => ?_, fun h => ?_, fun h => ?_⟩
  · rw [if_pos ⟨h.1, h.2⟩]
  · rw [if_neg h]
  · rw [if_neg]
    rintro ⟨-, hgt⟩
    rw [h] at hgt
    exact lt_irrefl _ hgt

/-- Witness for C4: with no motion candidate a scene cut of
confidence 1 overrides; with an equal-confidence motion candidate
the motion candidate is kept. -/
theorem scene_override_characterization_witness :
    chooseCandidate (none, 0) true 1 = (some CutType.corte_de_cena, 1) ∧
    chooseCandidate (some (CutType.parada .RIGHT), 1) true 1 =
      (some (CutType.parada .RIGHT), 1) := by
  constructor
  · exact (scene_override_characterization (none, 0) true 1).1 ⟨rfl, by norm_num⟩
  · exact (scene_override_characterization
      (some (CutType.parada .RIGHT), 1) true 1).2.2 rfl

/-- C6: every angle in [0,360) is mapped by the 8-way bucket to one
of the 8 compass directions (MIXED is unreachable), and each 22.5°
boundary value belongs to the sector for which it is the lower
inclusive bound. -/
theorem angle_bucket_total (a : ℚ) (h0 : 0 ≤ a) (h1 : a < 360) :
    (angle_to_direction_8 a ≠ .MIXED ∧
     angle_to_direction_8 a ∈ [MovementDirection.RIGHT, .UP_RIGHT, .UP, .UP_LEFT,
       .LEFT, .DOWN_LEFT, .DOWN, .DOWN_RIGHT]) ∧
    (angle_to_direction_8 22.5 = .UP_RIGHT ∧ angle_to_direction_8 67.5 = .UP ∧
     angle_to_direction_8 112.5 = .UP_LEFT ∧ angle_to_direction_8 157.5 = .LEFT ∧
     angle_to_direction_8 202.5 = .DOWN_LEFT ∧ angle_to_direction_8 247.5 = .DOWN ∧
     angle_to_direction_8 292.5 = .DOWN_RIGHT ∧ angle_to_direction_8 337.5 = .RIGHT) := by
  constructor
  · have hq : qmod a 360 = a := qmod_eq_self h0 (by linarith)
    simp only [angle_to_direction_8, hq]
    split_ifs with h2 h3 h4 h5 h6 h7 h8 h9
    · exact ⟨by decide, by decide⟩
    · exact ⟨by decide, by decide⟩
    · exact ⟨by decide, by decide⟩
    · exact ⟨by decide, by decide⟩
    · exact ⟨by decide, by decide⟩
    · exact ⟨by decide, by decide⟩
    · exact ⟨by decide, by decide⟩
    · exact ⟨by decide, by decide⟩
    · exfalso
      push_neg at h2 h3 h4 h5 h6 h7 h8 h9
      obtain ⟨ha1, ha2⟩ := h2
      have b3 := h3 ha1
      have b4 := h4 b3
      have b5 := h5 b4
      have b6 := h6 b5
      have b7 := h7 b6
      have b8 := h8 b7
      have b9 := h9 b8
      linarith
  · refine ⟨?_, ?_, ?_, ?_, ?_, ?_, ?_, ?_⟩ <;>
      norm_num [angle_to_direction_8, qmod]

/-- Witness for C6: the bucket at 300° is DOWN_RIGHT, not MIXED. -/
theorem angle_bucket_total_witness :
    angle_to_direction_8 300 ≠ .MIXED ∧
    angle_to_direction_8 300 ∈ [MovementDirection.RIGHT, .UP_RIGHT, .UP, .UP_LEFT,
      .LEFT, .DOWN_LEFT, .DOWN, .DOWN_RIGHT] :=
  (angle_bucket_total 300 (by norm_num) (by norm_num)).1

/-- C8: the effective thresholds are raw/sensitivity for magnitude,
angle-change and histogram and min(0.99, raw × sensitivity) for SSIM;
sensitivity 1/2 doubles the effective magnitude threshold; raising
sensitivity strictly lowers the motion/histogram thresholds and
(weakly) raises the SSIM threshold, which never exceeds 0.99. -/
theorem sensitivity_scaling (c : Config) (hs : 0 < c.sensitivity) :
    effective_magnitude_threshold c = c.magnitude_threshold / c.sensitivity ∧
    effective_angle_change_threshold c = c.angle_change_threshold / c.sensitivity ∧
    effective_histogram_threshold c = c.histogram_threshold / c.sensitivity ∧
    effective_ssim_threshold c = min (99/100) (c.ssim_threshold * c.sensitivity) ∧
    (c.sensitivity = 1/2 →
      effective_magnitude_threshold c = 2 * c.magnitude_threshold) ∧
    (∀ c' : Config,
      c'.magnitude_threshold = c.magnitude_threshold →
      c'.angle_change_threshold = c.angle_change_threshold →
      c'.histogram_threshold = c.histogram_threshold →
      c'.ssim_threshold = c.ssim_threshold →
      c.sensitivity < c'.sensitivity →
      0 < c.magnitude_threshold →
      0 < c.angle_change_threshold →
      0 < c.histogram_threshold →
      0 ≤ c.ssim_threshold →
      effective_magnitude_threshold c' < effective_magnitude_threshold c ∧
      effective_angle_change_threshold c' < effective_angle_change_threshold c ∧
      effective_histogram_threshold c' < effective_histogram_threshold c ∧
      effective_ssim_threshold c ≤ effective_ssim_threshold c' ∧
      effective_ssim_threshold c' ≤ 99/100) := by
  refine ⟨rfl, rfl, rfl, by norm_num [effective_ssim_threshold], ?_, ?_⟩
  · intro h
    unfold effective_magnitude_threshold
    rw [h]
    ring
  · intro c' h1 h2 h3 h4 hlt hm ha hh hs0
    unfold effective_magnitude_threshold effective_angle_change_threshold
      effective_histogram_threshold effective_ssim_threshold
    rw [h1, h2, h3, h4]
    have hs' : 0 < c'.sensitivity := lt_trans hs hlt
    refine ⟨div_lt_div_of_pos_left hm hs hlt,
      div_lt_div_of_pos_left ha hs hlt,
      div_lt_div_of_pos_left hh hs hlt, ?_,
      le_trans (min_le_left _ _) (by norm_num)⟩
    exact min_le_min le_rfl (mul_le_mul_of_nonneg_left hlt.le hs0)

/-- Witness for C8: cfgHalf (sensitivity 1/2) doubles the magnitude
threshold; raising sensitivity to 1 (cfgA) lowers it and raises the
SSIM threshold. -/
theorem sensitivity_scaling_witness :
    effective_magnitude_threshold cfgHalf = 2 * cfgHalf.magnitude_threshold ∧
    effective_magnitude_threshold cfgA < effective_magnitude_threshold cfgHalf ∧
    effective_ssim_threshold cfgHalf ≤ effective_ssim_threshold cfgA ∧
    effective_ssim_threshold cfgA ≤ 99/100 := by
  have h := sensitivity_scaling cfgHalf (by norm_num [cfgHalf, cfgA])
  have h6 := h.2.2.2.2.2 cfgA rfl rfl rfl rfl
    (by norm_num [cfgHalf, cfgA]) (by norm_num [cfgHalf, cfgA])
    (by norm_num [cfgHalf, cfgA]) (by norm_num [cfgHalf, cfgA])
    (by norm_num [cfgHalf, cfgA])
  exact ⟨h.2.2.2.2.1 (by norm_num [cfgHalf, cfgA]), h6.1, h6.2.2.2.1, h6.2.2.2.2⟩

/-- Counterexample to C2: with positive thresholds 0.4 / 0.7 and a
histogram difference of 0.9 (attained by the source formula at
channel correlations −0.8, each within the [−1,1] range of
HISTCMP_CORREL), the hist-only branch of is_scene_cut returns
confidence 0.9/0.4 × 0.7 = 1.575 > 1; the detector run runA emits
cut events carrying that confidence, so emitted confidences also
exceed 1. -/
theorem scene_confidence_above_one_cex :
    (0:ℚ) < 2/5 ∧ (0:ℚ) < 7/10 ∧
    histogram_difference [-(4/5), -(4/5), -(4/5)] = 9/10 ∧
    (is_scene_cut (9/10) 1 (2/5) (7/10)).2 = 63/40 ∧ (1:ℚ) < 63/40 ∧
    runA.cut_points.map (fun e => e.confidence) = [63/40, 63/40] := by
  refine ⟨by norm_num, by norm_num, ?_, ?_, by norm_num, ?_⟩
  · norm_num [histogram_difference, listMean]
  · norm_num [is_scene_cut]
  · rw [runA_eq]
    norm_num [cutE1, cutE2]

/-- C2 (amended): is_scene_cut confidences are nonnegative (for
hist_diff ≥ 0, ssim ≤ 1, positive histogram threshold and SSIM
threshold ≤ 0.99) and the both-signals branch is clamped to ≤ 1,
but the single-signal branches are unclamped; motion-change
confidences always lie in [0,1] when all window magnitudes are
nonnegative. -/
theorem confidence_bounds (hd s ht st : ℚ) (circM : List ℚ → ℚ)
    (mt stt act : ℚ) (angles mags : List ℚ) (dirs : List MovementDirection)
    (hht : 0 < ht) (hst : st ≤ 99/100) (hhd : 0 ≤ hd) (hs : s ≤ 1)
    (hmags : ∀ x ∈ mags, 0 ≤ x) :
    0 ≤ (is_scene_cut hd s ht st).2 ∧
    (hd > ht → s < st → (is_scene_cut hd s ht st).2 ≤ 1) ∧
    0 ≤ (detect_motion_change circM mt stt act angles mags dirs).confidence ∧
    (detect_motion_change circM mt stt act angles mags dirs).confidence ≤ 1 := by
  have hden : 0 < 1 - st + 1/1000000 := by linarith
  have hnum : 0 ≤ 1 - s := by linarith
  have hm1 : 0 ≤ listMean (mags.take (angles.length / 2)) :=
    listMean_nonneg (fun x hx => hmags x (List.take_subset _ _ hx))
  have hm2 : 0 ≤ listMean (mags.drop (angles.length / 2)) :=
    listMean_nonneg (fun x hx => hmags x (List.drop_subset _ _ hx))
  have hang := angle_difference_nonneg (circM (angles.take (angles.length / 2)))
    (circM (angles.drop (angles.length / 2)))
  refine ⟨?_, ?_, ?_, ?_⟩
  · unfold is_scene_cut
    dsimp only
    split_ifs with h1 h2 h3
    · have d1 : 0 ≤ hd / ht := div_nonneg hhd hht.le
      have d2 : 0 ≤ (1 - s) / (1 - st + 1/1000000) := div_nonneg hnum hden.le
      dsimp only
      exact le_min (by norm_num) (by linarith)
    · dsimp only
      have : 0 ≤ hd / ht * (7/10) := by positivity
      linarith [this]
    · dsimp only
      have d2 : 0 ≤ (1 - s) / (1 - st + 1/1000000) := div_nonneg hnum hden.le
      nlinarith [d2]
    · dsimp only
      exact le_refl 0
  · intro hh hss
    unfold is_scene_cut
    dsimp only
    rw [if_pos ⟨hh, hss⟩]
    exact min_le_left _ _
  · unfold detect_motion_change
    dsimp only
    split_ifs with h1 h2 h3 h4 <;> dsimp only
    · exact le_min (by norm_num) (by positivity)
    · exact le_min (by norm_num) (by positivity)
    · exact le_min (by norm_num) (by positivity)
    · exact le_refl 0
    · exact le_refl 0
  · unfold detect_motion_change
    dsimp only
    split_ifs with h1 h2 h3 h4 <;> dsimp only
    · exact min_le_left _ _
    · exact min_le_left _ _
    · exact min_le_left _ _
    · norm_num
    · norm_num

/-- Witness for C2 (amended) at concrete values: thresholds 0.4 /
0.7, hist_diff 0.5, ssim 0.5, a two-sample window. -/
theorem confidence_bounds_witness :
    0 ≤ (is_scene_cut (1/2) (1/2) (2/5) (7/10)).2 ∧
    ((1:ℚ)/2 > 2/5 → (1:ℚ)/2 < 7/10 → (is_scene_cut (1/2) (1/2) (2/5) (7/10)).2 ≤ 1) ∧
    0 ≤ (detect_motion_change czero 1 (3/10) 30 [0, 0] [2, 0]
      [.RIGHT, .NONE]).confidence ∧
    (detect_motion_change czero 1 (3/10) 30 [0, 0] [2, 0]
      [.RIGHT, .NONE]).confidence ≤ 1 := by
  exact confidence_bounds (1/2) (1/2) (2/5) (7/10) czero 1 (3/10) 30 [0, 0] [2, 0]
    [.RIGHT, .NONE] (by norm_num) (by norm_num) (by norm_num) (by norm_num)
    (by
      intro x hx
      simp only [List.mem_cons, List.not_mem_nil, or_false] at hx
      rcases hx with rfl | rfl <;> norm_num)

/-- Counterexample to C1: under cfgA (min_segment_duration = 0.5 s)
at 3 fps, the run runA emits consecutive cuts at timestamps 2/3 and
1: their distance 1/3 is below min_segment_duration, because the
debounce uses int(0.5 × 3) = 1 frame, not 0.5 s. -/
theorem min_spacing_cex :
    detect cfgA 3 czero true true [sceneFD, sceneFD] =
      Except.ok [cutE1, cutE2] ∧
    cutE2.timestamp - cutE1.timestamp = 1/3 ∧
    (1:ℚ)/3 < cfgA.min_segment_duration := by
  refine ⟨?_, ?_, by norm_num [cfgA]⟩
  · show Except.ok ((List.foldl (detectStep cfgA 3 czero) initState
      [sceneFD, sceneFD]).cut_points) = Except.ok [cutE1, cutE2]
    rw [show List.foldl (detectStep cfgA 3 czero) initState [sceneFD, sceneFD] = runA
      from rfl, runA_eq]
  · norm_num [cutE1, cutE2]

/-- Counterexample to C3: in the run runA (window_size = 3) a second
cut fires at frame 3, only one analyzed frame after the cut at
frame 2 — so a scene cut can be emitted before window_size new
samples have accumulated. -/
theorem cut_before_window_refill_cex :
    runA.cut_points.map (fun e => e.frame) = [2, 3] ∧
    (detectStep cfgA 3 czero initState sceneFD).magnitude_window = [] ∧
    (3 - 2 : ℕ) < cfgA.window_size := by
  refine ⟨?_, ?_, by norm_num [cfgA]⟩
  · rw [runA_eq]
    norm_num [cutE1, cutE2]
  · have : detectStep cfgA 3 czero initState sceneFD =
        (List.foldl (detectStep cfgA 3 czero) initState [sceneFD]) := rfl
    rw [this]
    norm_num [detectStep, initState, cfgA, sceneFD, zeroFlow, czero,
      analyze_flow, listMean, pushWindow, effective_magnitude_threshold,
      effective_histogram_threshold, effective_ssim_threshold,
      effective_angle_change_threshold, min_frames_between_cuts, is_scene_cut,
      motion_candidate, chooseCandidate, detect_motion_change, dominant_direction,
      angle_difference, qmod, dir_value]

/-- C7: the detector raises exactly when the source cannot be opened;
an unreadable first frame yields an empty cut list without error; and
the loop over the successfully decoded frames returns the cuts
accumulated when the stream ends (a mid-stream decode failure is the
end of the stream, not an error). -/
theorem detect_error_behavior (c : Config) (fps : ℚ) (circM : List ℚ → ℚ)
    (opened first_read_ok : Bool) (stream : List FrameData) :
    ((∃ msg, detect c fps circM opened first_read_ok stream = Except.error msg) ↔
      opened = false) ∧
    (opened = true → first_read_ok = false →
      detect c fps circM opened first_read_ok stream = Except.ok []) ∧
    (opened = true → first_read_ok = true →
      detect c fps circM opened first_read_ok stream =
        Except.ok ((stream.foldl (detectStep c fps circM) initState).cut_points)) := by
  cases opened <;> cases first_read_ok <;> simp [detect]

/-- Witness for C7: under cfgA an unreadable first frame returns an
empty list, and an unopenable source returns an error. -/
theorem detect_error_behavior_witness :
    detect cfgA 3 czero true false [sceneFD] = Except.ok [] ∧
    (∃ msg, detect cfgA 3 czero false true [sceneFD] = Except.error msg) := by
  constructor
  · exact (detect_error_behavior cfgA 3 czero true false [sceneFD]).2.1 rfl rfl
  · exact ((detect_error_behavior cfgA 3 czero false true [sceneFD]).1).mpr rfl

/-- C3 (amended): a step that emits a cut leaves all three sliding
windows empty; the emitted cut lies at least min_frames_between_cuts
frames after the previous cut frame; and a cut of motion type (not
"corte_de_cena") requires the windows to hold at least window_size
samples — but a scene cut has no such window requirement. -/
theorem cut_step_resets (c : Config) (fps : ℚ) (circM : List ℚ → ℚ)
    (st : DetState) (fd : FrameData)
    (hcut : st.cut_points.length < (detectStep c fps circM st fd).cut_points.length) :
    ((detectStep c fps circM st fd).angle_window = [] ∧
     (detectStep c fps circM st fd).magnitude_window = [] ∧
     (detectStep c fps circM st fd).direction_window = []) ∧
    (∀ e, (detectStep c fps circM st fd).cut_points.getLast? = some e →
      min_frames_between_cuts c fps ≤ (e.frame : ℤ) - (st.last_cut_frame : ℤ) ∧
      (e.ctype ≠ CutType.corte_de_cena →
        c.window_size ≤ st.magnitude_window.length + 1)) := by
  unfold detectStep at hcut ⊢
  dsimp only at hcut ⊢
  split_ifs at hcut ⊢ with hgate
  · simp at hcut
  · split
    · rename_i ct heq
      dsimp only
      refine ⟨⟨rfl, rfl, rfl⟩, ?_⟩
      intro e he
      rw [List.getLast?_concat] at he
      injection he with he
      subst he
      refine ⟨not_lt.mp hgate, ?_⟩
      intro hne
      dsimp only at hne
      unfold chooseCandidate at heq
      split_ifs at heq with hov
      · dsimp only at heq
        exact absurd (Option.some.inj heq).symm hne
      · unfold motion_candidate at heq
        dsimp only at heq
        split_ifs at heq with hws hchanged
        rw [pushWindow_length] at hws
        exact le_trans hws (min_le_right _ _)
    · rename_i heq
      rw [heq] at hcut
      simp at hcut

/-- Witness for C3 (amended): the first step of the concrete run
emits a cut and leaves the windows empty. -/
theorem cut_step_resets_witness :
    (detectStep cfgA 3 czero initState sceneFD).angle_window = [] ∧
    (detectStep cfgA 3 czero initState sceneFD).magnitude_window = [] ∧
    (detectStep cfgA 3 czero initState sceneFD).direction_window = [] := by
  refine (cut_step_resets cfgA 3 czero initState sceneFD ?_).1
  have h1 : detectStep cfgA 3 czero initState sceneFD =
      (List.foldl (detectStep cfgA 3 czero) initState [sceneFD]) := rfl
  rw [h1]
  norm_num [detectStep, initState, cfgA, sceneFD, zeroFlow, czero,
    analyze_flow, listMean, pushWindow, effective_magnitude_threshold,
    effective_histogram_threshold, effective_ssim_threshold,
    effective_angle_change_threshold, min_frames_between_cuts, is_scene_cut,
    motion_candidate, chooseCandidate, detect_motion_change, dominant_direction,
    angle_difference, qmod, dir_value]

theorem chain'_imp_of_mem {α : Type} {R S : α → α → Prop} {P : α → Prop} :
    ∀ {l : List α}, (∀ a ∈ l, P a) → List.Chain' R l →
    (∀ a b, P a → P b → R a b → S a b) → List.Chain' S l := by
  intro l
  induction l with
  | nil => intro _ _ _; exact List.chain'_nil
  | cons a t ih =>
    intro hP hc himp
    rw [List.chain'_cons'] at hc ⊢
    refine ⟨?_, ih (fun x hx => hP x (List.mem_cons_of_mem _ hx)) hc.2 himp⟩
    intro b hb
    have hbmem : b ∈ t := List.mem_of_mem_head? hb
    exact himp a b (hP a (List.mem_cons_self a t))
      (hP b (List.mem_cons_of_mem _ hbmem)) (hc.1 b hb)

theorem detectStep_inv (c : Config) (fps : ℚ) (circM : List ℚ → ℚ)
    (st : DetState) (fd : FrameData)
    (h1 : st.last_cut_frame ≤ st.frame_number)
    (h2 : ∀ e ∈ st.cut_points,
      e.timestamp = (e.frame : ℚ) / fps ∧ e.frame ≤ st.last_cut_frame)
    (h3 : List.Chain' (fun a b =>
      min_frames_between_cuts c fps ≤ (b.frame : ℤ) - (a.frame : ℤ)) st.cut_points) :
    (detectStep c fps circM st fd).last_cut_frame ≤
      (detectStep c fps circM st fd).frame_number ∧
    (∀ e ∈ (detectStep c fps circM st fd).cut_points,
      e.timestamp = (e.frame : ℚ) / fps ∧
      e.frame ≤ (detectStep c fps circM st fd).last_cut_frame) ∧
    List.Chain' (fun a b =>
      min_frames_between_cuts c fps ≤ (b.frame : ℤ) - (a.frame : ℤ))
      (detectStep c fps circM st fd).cut_points := by
  unfold detectStep
  dsimp only
  split_ifs with hgate
  · exact ⟨by dsimp only; omega, h2, h3⟩
  · split
    · rename_i ct heq
      dsimp only
      refine ⟨le_refl _, ?_, ?_⟩
      · intro e he
        rcases List.mem_append.mp he with hmem | hmem
        · obtain ⟨hts, hfr⟩ := h2 e hmem
          exact ⟨hts, by omega⟩
        · rw [List.mem_singleton] at hmem
          subst hmem
          exact ⟨rfl, le_refl _⟩
      · rw [List.chain'_append]
        refine ⟨h3, List.chain'_singleton _, ?_⟩
        intro x hx y hy
        rw [List.head?_cons, Option.mem_some_iff] at hy
        subst hy
        have hxmem : x ∈ st.cut_points := List.mem_of_mem_getLast? hx
        have hxle : x.frame ≤ st.last_cut_frame := (h2 x hxmem).2
        dsimp only
        omega
    · rename_i heq
      exact ⟨by dsimp only; omega, h2, h3⟩

theorem detect_loop_inv (c : Config) (fps : ℚ) (circM : List ℚ → ℚ) :
    ∀ (stream : List FrameData) (st : DetState),
    st.last_cut_frame ≤ st.frame_number →
    (∀ e ∈ st.cut_points,
      e.timestamp = (e.frame : ℚ) / fps ∧ e.frame ≤ st.last_cut_frame) →
    List.Chain' (fun a b =>
      min_frames_between_cuts c fps ≤ (b.frame : ℤ) - (a.frame : ℤ)) st.cut_points →
    (∀ e ∈ (stream.foldl (detectStep c fps circM) st).cut_points,
      e.timestamp = (e.frame : ℚ) / fps) ∧
    List.Chain' (fun a b =>
      min_frames_between_cuts c fps ≤ (b.frame : ℤ) - (a.frame : ℤ))
      (stream.foldl (detectStep c fps circM) st).cut_points := by
  intro stream
  induction stream with
  | nil =>
    intro st h1 h2 h3
    exact ⟨fun e he => (h2 e he).1, h3⟩
  | cons fd tl ih =>
    intro st h1 h2 h3
    rw [List.foldl_cons]
    have h := detectStep_inv c fps circM st fd h1 h2 h3
    exact ih _ h.1 h.2.1 h.2.2

/-- C1 (amended): any two consecutive cuts emitted by detect are at
least int(min_segment_duration × fps) frames apart, hence their
timestamps differ by at least ⌊min_segment_duration × fps⌋ / fps —
which can fall short of min_segment_duration itself by up to one
frame period (see the counterexample). -/
theorem consecutive_cut_spacing (c : Config) (fps : ℚ) (circM : List ℚ → ℚ)
    (stream : List FrameData) (cuts : List CutEvent)
    (hfps : 0 < fps)
    (hdet : detect c fps circM true true stream = Except.ok cuts) :
    List.Chain' (fun e1 e2 =>
      min_frames_between_cuts c fps ≤ (e2.frame : ℤ) - (e1.frame : ℤ) ∧
      (min_frames_between_cuts c fps : ℚ) / fps ≤ e2.timestamp - e1.timestamp)
      cuts := by
  have hcuts : (stream.foldl (detectStep c fps circM) initState).cut_points = cuts := by
    simpa [detect] using hdet
  obtain ⟨hts, hchain⟩ := detect_loop_inv c fps circM stream initState
    (by norm_num [initState]) (by simp [initState]) (by simp [initState])
  rw [hcuts] at hts hchain
  refine chain'_imp_of_mem hts hchain ?_
  intro a b hta htb hr
  refine ⟨hr, ?_⟩
  rw [hta, htb, div_sub_div_same]
  have hcast : ((min_frames_between_cuts c fps : ℤ) : ℚ) ≤
      ((b.frame : ℚ) - (a.frame : ℚ)) := by
    have h' : ((min_frames_between_cuts c fps : ℤ) : ℚ) ≤
        (((b.frame : ℤ) - (a.frame : ℤ) : ℤ) : ℚ) := Int.cast_le.mpr hr
    push_cast at h'
    linarith
  gcongr

/-- Witness for C1 (amended): the concrete run runA satisfies the
frame/timestamp spacing chain. -/
theorem consecutive_cut_spacing_witness :
    List.Chain' (fun e1 e2 =>
      min_frames_between_cuts cfgA 3 ≤ (e2.frame : ℤ) - (e1.frame : ℤ) ∧
      (min_frames_between_cuts cfgA 3 : ℚ) / 3 ≤ e2.timestamp - e1.timestamp)
      [cutE1, cutE2] := by
  have hdet : detect cfgA 3 czero true true [sceneFD, sceneFD] =
      Except.ok [cutE1, cutE2] := by
    show Except.ok ((List.foldl (detectStep cfgA 3 czero) initState
      [sceneFD, sceneFD]).cut_points) = Except.ok [cutE1, cutE2]
    rw [show List.foldl (detectStep cfgA 3 czero) initState [sceneFD, sceneFD] = runA
      from rfl, runA_eq]
  exact consecutive_cut_spacing cfgA 3 czero [sceneFD, sceneFD] [cutE1, cutE2]
    (by norm_num) hdet

theorem exists_rel_of_mem_right {α β : Type} {R : α → β → Prop} :
    ∀ {l₁ : List α} {l₂ : List β}, List.Forall₂ R l₁ l₂ →
    ∀ {x : β}, x ∈ l₂ → ∃ a ∈ l₁, R a x := by
  intro l₁ l₂ h
  induction h with
  | nil => intro x hx; simp at hx
  | cons hR hF ih =>
    intro x hx
    rcases List.mem_cons.mp hx with rfl | hx
    · exact ⟨_, List.mem_cons_self _ _, hR⟩
    · obtain ⟨a, ha, hr⟩ := ih hx
      exact ⟨a, List.mem_cons_of_mem _ ha, hr⟩

theorem half_dominant_ne {mt : ℚ} {mags : List ℚ} {dirs : List MovementDirection}
    (hlink : List.Forall₂ (fun d m => d = MovementDirection.NONE ↔ m < mt) dirs mags)
    (hmt : 0 ≤ mt) (hmean : mt < listMean mags) :
    dominant_direction dirs ≠ MovementDirection.NONE := by
  obtain ⟨x, hx, hge⟩ := mean_exists_ge hmt hmean
  obtain ⟨d, hdmem, hrel⟩ := exists_rel_of_mem_right hlink hx
  refine dominant_direction_ne ⟨d, hdmem, ?_⟩
  intro hdn
  exact absurd (hrel.mp hdn) (not_lt.mpr hge)

/-- C10: assuming a nonnegative magnitude threshold and windows
filled in lock-step (a sample's direction is NONE exactly when its
magnitude is below the threshold), a motion change reported by
_detect_motion_change never embeds the "parado" (NONE) tag in its
type: every direction carried by the parada/inicio/mudança result
renders to a string other than "parado". -/
theorem motion_cut_no_parado (circM : List ℚ → ℚ)
    (mt stt act : ℚ) (angles mags : List ℚ) (dirs : List MovementDirection)
    (hmt : 0 ≤ mt)
    (hlink : List.Forall₂ (fun d m => d = MovementDirection.NONE ↔ m < mt) dirs mags) :
    ∀ ct, (detect_motion_change circM mt stt act angles mags dirs).ctype = some ct →
      (∀ d, ct = CutType.parada d → dir_value d ≠ "parado") ∧
      (∀ d, ct = CutType.inicio d → dir_value d ≠ "parado") ∧
      (∀ d1 d2, ct = CutType.mudanca d1 d2 →
        dir_value d1 ≠ "parado" ∧ dir_value d2 ≠ "parado") := by
  intro ct hct
  have hlink1 := List.forall₂_take (angles.length / 2) hlink
  have hlink2 := List.forall₂_drop (angles.length / 2) hlink
  unfold detect_motion_change at hct
  dsimp only at hct
  split_ifs at hct with h1 h2 h3 h4
  · -- stop rule
    replace hct := Option.some.inj hct
    subst hct
    have hdom := half_dominant_ne hlink1 hmt (by nlinarith [h1.1])
    refine ⟨?_, ?_, ?_⟩
    · intro d hd
      injection hd with hd
      subst hd
      rw [Ne, dir_value_eq_parado]
      exact hdom
    · intro d hd; simp at hd
    · intro d1 d2 hd; simp at hd
  · -- start rule
    replace hct := Option.some.inj hct
    subst hct
    have hdom := half_dominant_ne hlink2 hmt (by nlinarith [h2.2])
    refine ⟨?_, ?_, ?_⟩
    · intro d hd; simp at hd
    · intro d hd
      injection hd with hd
      subst hd
      rw [Ne, dir_value_eq_parado]
      exact hdom
    · intro d1 d2 hd; simp at hd
  · -- angle-shift rule
    replace hct := Option.some.inj hct
    subst hct
    have hdom1 := half_dominant_ne hlink1 hmt h3.1
    have hdom2 := half_dominant_ne hlink2 hmt h3.2
    refine ⟨?_, ?_, ?_⟩
    · intro d hd; simp at hd
    · intro d hd; simp at hd
    · intro d1 d2 hd
      injection hd with hd1 hd2
      subst hd1
      subst hd2
      constructor
      · rw [Ne, dir_value_eq_parado]; exact hdom1
      · rw [Ne, dir_value_eq_parado]; exact hdom2

/-- Witness for C10: threshold 1, a two-sample window with magnitudes
[2, 0] and directions [RIGHT, NONE]: the stop rule fires with type
parada_direita, whose direction tag is not "parado". -/
theorem motion_cut_no_parado_witness :
    (detect_motion_change czero 1 (3/10) 30 [0, 0] [2, 0]
      [MovementDirection.RIGHT, MovementDirection.NONE]).ctype =
      some (CutType.parada MovementDirection.RIGHT) ∧
    dir_value MovementDirection.RIGHT ≠ "parado" := by
  have hctype : (detect_motion_change czero 1 (3/10) 30 [0, 0] [2, 0]
      [MovementDirection.RIGHT, MovementDirection.NONE]).ctype =
      some (CutType.parada MovementDirection.RIGHT) := by
    have hdd : dominant_direction [MovementDirection.RIGHT] =
        MovementDirection.RIGHT := by decide
    norm_num [detect_motion_change, listMean, czero, angle_difference, qmod, hdd]
  refine ⟨hctype, ?_⟩
  have h := motion_cut_no_parado czero 1 (3/10) 30 [0, 0] [2, 0]
    [MovementDirection.RIGHT, MovementDirection.NONE] (by norm_num) ?_
    (CutType.parada MovementDirection.RIGHT) hctype
  · exact h.1 MovementDirection.RIGHT rfl
  · refine List.Forall₂.cons ?_ (List.Forall₂.cons ?_ List.Forall₂.nil)
    · constructor
      · intro h; exact absurd h (by decide)
      · intro h; exact absurd h (by norm_num)
    · constructor
      · intro _; norm_num
      · intro _; rfl

end AutoCorte
